import Mathlib

/-!
Verification development for the kernel session and execution protocol
manager of `crates/runtimes/src/runtimes.rs`.

The embedding models:
- the `RuntimeManager` state (`runtimes` catalog, `instances` map from
  editor entity id to `RunningKernel`), as an association list whose
  insert operation replaces any existing entry for the key, matching
  `HashMap::insert`;
- the synchronous prefix of `acquire_shell_request_tx` (cache-hit check,
  catalog lookup, error return or spawn of the launch task);
- the spawned launch closure (`RunningKernel::new`, handshake send,
  bounded wait on the kernel-info reply, installation of the session);
- the channel wiring of `execute_code` (fresh unbounded channel whose
  sender is the submitted request's `iopub_sender` and whose receiver is
  returned to the caller);
- an interleaving small-step semantics over these pieces, in which
  channels and handshake execution ids are identified by the index of
  their allocation, so that freshness of `mpsc::unbounded()` is explicit.
-/

namespace Runtimes

/-- Channel endpoints are identified by allocation index; a fresh
`mpsc::unbounded()` call yields the next unused index. -/
abbrev ChanId := Nat

/-- Modelled from the spec: the `kernelspecs` module is not in the excerpt.
A `RuntimeSpec` is a language identifier plus launch command/arguments
(§3: "{ language identifier, launch command/arguments, environment }"). -/
structure RuntimeSpec where
  language : String
  argv : List String
  deriving DecidableEq

/-- Modelled from the spec: a catalog entry wrapping a spec, mirroring the
`Runtime` type of the `kernelspecs` module whose `spec.language` field is
what `acquire_shell_request_tx` inspects. -/
structure Runtime where
  spec : RuntimeSpec
  deriving DecidableEq

/-- Modelled from the spec: the kernel process handle of the missing
`kernelspecs` module. Only its control-request sender (`shell_request_tx`)
is observed by `runtimes.rs`. -/
structure RunningKernel where
  shell_request_tx : ChanId
  deriving DecidableEq

/-- The two message payloads `runtimes.rs` constructs:
`JupyterMessageContent::KernelInfoRequest` during the launch handshake and
`JupyterMessageContent::ExecuteRequest` in `execute_code`. -/
inductive MessageContent where
  | kernelInfoRequest : MessageContent
  | executeRequest (code : String) : MessageContent
  deriving DecidableEq

/-- The `Request` struct of the `tokio_kernel` module as used by
`runtimes.rs`: an execution id, a message payload, and the per-request
output sink (`iopub_sender`). -/
structure Request where
  execution_id : Nat
  request : MessageContent
  iopub_sender : ChanId
  deriving DecidableEq

/-- Association-list lookup, modelling `HashMap::get` on `instances`. -/
def lookupInstance : List (Nat × RunningKernel) → Nat → Option RunningKernel
  | [], _ => none
  | (k, v) :: rest, e => if k = e then some v else lookupInstance rest e

/-- Association-list insert that replaces any existing entry for the key,
modelling `HashMap::insert` on `instances`. -/
def insertInstance (m : List (Nat × RunningKernel)) (k : Nat) (v : RunningKernel) :
    List (Nat × RunningKernel) :=
  (k, v) :: m.filter (fun p => p.1 ≠ k)

/-- The `RuntimeManager` state observed by the two operations under
study: the runtime catalog and the map of running kernels per editor
entity id. -/
structure RuntimeManager where
  runtimes : List Runtime
  instances : List (Nat × RunningKernel)
  deriving DecidableEq

/-- Catalog resolution in `acquire_shell_request_tx`:
`self.runtimes.iter().find(|runtime| runtime.spec.language == language_name)`. -/
def findRuntime (runtimes : List Runtime) (language : String) : Option Runtime :=
  runtimes.find? (fun r => r.spec.language == language)

deriving instance DecidableEq for Except

/-- Outcome of the synchronous prefix of `acquire_shell_request_tx`:
either an immediately ready result (`Task::ready`) or the spawn of the
asynchronous launch task for a resolved runtime. -/
inductive AcquireSync where
  | ready (result : Except String ChanId) : AcquireSync
  | spawnLaunch (runtime : Runtime) : AcquireSync
  deriving DecidableEq

/-- The synchronous prefix of `acquire_shell_request_tx` (lines 114-140):
return the cached sender on a live instance, otherwise resolve a runtime
by first language match and fail with the "No runtime found" error when
none matches, otherwise spawn the launch task. -/
def acquire_shell_request_tx_sync (mgr : RuntimeManager) (entity_id : Nat)
    (language_name : String) : AcquireSync :=
  match lookupInstance mgr.instances entity_id with
  | some running_kernel => .ready (.ok running_kernel.shell_request_tx)
  | none =>
    match findRuntime mgr.runtimes language_name with
    | none => .ready (.error ("No runtime found for language " ++ language_name))
    | some runtime => .spawnLaunch runtime

/-- Outcome of `futures::future::select(rx.next(), timeout)` in the launch
task: either the kernel-info reply arrived first or the 1-second timer
fired first. The code discards this value. -/
inductive HandshakeOutcome where
  | reply : HandshakeOutcome
  | timeout : HandshakeOutcome
  deriving DecidableEq

/-- The spawned launch closure of `acquire_shell_request_tx` (lines
140-166), with its external effects as parameters: `launch` is the result
of `RunningKernel::new`, `sendOk` whether the handshake send succeeded,
and `handshake` which arm of the bounded wait won. Returns the result of
the task together with the updated `instances` map. -/
def launch_continuation (instances : List (Nat × RunningKernel)) (entity_id : Nat)
    (launch : Except String RunningKernel) (sendOk : Bool)
    (handshake : HandshakeOutcome) : Except String ChanId × List (Nat × RunningKernel) :=
  match launch with
  | .error e => (.error e, instances)
  | .ok running_kernel =>
    if sendOk then
      match handshake with
      | _ =>
        (.ok running_kernel.shell_request_tx,
         insertInstance instances entity_id running_kernel)
    else (.error "handshake send failed", instances)

/-- Result of the channel wiring in `execute_code` (lines 177-203): the
submitted request, the receiver handed back to the caller, and the next
free channel index. -/
structure ExecuteWiring where
  request : Request
  rx : ChanId
  nextChan : Nat
  deriving DecidableEq

/-- The channel wiring of `execute_code`: `let (tx, rx) = mpsc::unbounded()`
followed by submission of a `Request` whose `iopub_sender` is `tx` and
whose `execution_id` and code are the call's arguments; `rx` is returned. -/
def execute_code_wiring (execution_id : Nat) (code : String) (nextChan : Nat) :
    ExecuteWiring :=
  let tx : ChanId := nextChan
  { request := { execution_id := execution_id,
                 request := .executeRequest code,
                 iopub_sender := tx },
    rx := tx,
    nextChan := nextChan + 1 }

/-- Result of the submission half of `execute_code` after acquisition
succeeded: the call's result, the list of send attempts made on the
control sender, and the (untouched) `instances` map. -/
structure ExecuteSubmit where
  result : Except String ChanId
  attempts : List Request
  instances : List (Nat × RunningKernel)
  deriving DecidableEq

/-- The submission half of `execute_code` (lines 182-203): one
`unbounded_send` of the execution request on the acquired control sender;
if the channel is closed the error "Failed to send execution request" is
returned, otherwise the receiver of the fresh output channel. The
`instances` map is passed through untouched: `execute_code` never mutates
it after acquisition. -/
def execute_code_submit (instances : List (Nat × RunningKernel)) (txClosed : Bool)
    (execution_id : Nat) (code : String) (nextChan : Nat) : ExecuteSubmit :=
  let w := execute_code_wiring execution_id code nextChan
  if txClosed then
    { result := .error "Failed to send execution request",
      attempts := [w.request],
      instances := instances }
  else
    { result := .ok w.rx,
      attempts := [w.request],
      instances := instances }

/-- Phase of an in-flight acquisition: `launching` after the spawn of the
launch task and before `RunningKernel::new` resolves; `handshaking` after
the kernel exists and the kernel-info request was sent, while the bounded
wait is pending; `done` once `Task` resolved with a result. -/
inductive TaskPhase where
  | launching (runtime : Runtime) : TaskPhase
  | handshaking (kernel : RunningKernel) (sink : ChanId) : TaskPhase
  | done (result : Except String ChanId) : TaskPhase
  deriving DecidableEq

/-- One in-flight (or finished) call to `acquire_shell_request_tx`. -/
structure AcquireTask where
  entity_id : Nat
  language_name : String
  phase : TaskPhase
  deriving DecidableEq

/-- Global state of the interleaving model: the manager state, the list
of acquisition tasks, the channel and execution-id allocators, the number
of kernel launches started, and the log of every request ever submitted
on a control sender (handshakes and executions). -/
structure World where
  mgr : RuntimeManager
  tasks : List AcquireTask
  nextChan : Nat
  nextExecId : Nat
  launches : Nat
  submitted : List Request
  deriving DecidableEq

/-- Interleaving actions. `callAcquire` runs the synchronous prefix of
`acquire_shell_request_tx` atomically (it holds the single `&mut self`
borrow); the remaining actions advance one spawned launch task across its
await points; `execSubmit` performs the submission half of `execute_code`
for an acquisition that already produced a control sender. -/
inductive Action where
  | callAcquire (entity_id : Nat) (language_name : String) : Action
  | launchOk (i : Nat) : Action
  | launchErr (i : Nat) (msg : String) : Action
  | handshakeReply (i : Nat) : Action
  | handshakeTimeout (i : Nat) : Action
  | execSubmit (execution_id : Nat) (code : String) : Action
  deriving DecidableEq

/-- Initial world: a fresh `RuntimeManager` (empty `instances`, as built
by `RuntimeManager::new`) whose catalog was populated with `rts`. -/
def initWorld (rts : List Runtime) : World :=
  { mgr := { runtimes := rts, instances := [] },
    tasks := [], nextChan := 0, nextExecId := 0, launches := 0, submitted := [] }

/-- Shared continuation of the two handshake outcomes: the launch task
ignores which arm of `select(rx.next(), timeout)` won, installs the
kernel under the entity id and resolves with the control sender. -/
def stepHandshakeDone (w : World) (i : Nat) : Option World :=
  match w.tasks.get? i with
  | none => none
  | some t =>
    match t.phase with
    | .handshaking kernel _sink =>
      some { w with
        tasks := w.tasks.set i { t with phase := .done (.ok kernel.shell_request_tx) },
        mgr := { w.mgr with
          instances := insertInstance w.mgr.instances t.entity_id kernel } }
    | _ => none

/-- Small-step transition function. `none` means the action is not
enabled in `w`. -/
def stepA (w : World) (a : Action) : Option World :=
  match a with
  | .callAcquire entity_id language_name =>
    match acquire_shell_request_tx_sync w.mgr entity_id language_name with
    | .ready r =>
      some { w with tasks := w.tasks ++ [⟨entity_id, language_name, .done r⟩] }
    | .spawnLaunch runtime =>
      some { w with
        tasks := w.tasks ++ [⟨entity_id, language_name, .launching runtime⟩],
        launches := w.launches + 1 }
  | .launchOk i =>
    match w.tasks.get? i with
    | none => none
    | some t =>
      match t.phase with
      | .launching _runtime =>
        let kernel : RunningKernel := ⟨w.nextChan⟩
        let sink : ChanId := w.nextChan + 1
        let req : Request :=
          { execution_id := w.nextExecId, request := .kernelInfoRequest,
            iopub_sender := sink }
        some { w with
          tasks := w.tasks.set i { t with phase := .handshaking kernel sink },
          nextChan := w.nextChan + 2,
          nextExecId := w.nextExecId + 1,
          submitted := w.submitted ++ [req] }
      | _ => none
  | .launchErr i msg =>
    match w.tasks.get? i with
    | none => none
    | some t =>
      match t.phase with
      | .launching _runtime =>
        some { w with tasks := w.tasks.set i { t with phase := .done (.error msg) } }
      | _ => none
  | .handshakeReply i => stepHandshakeDone w i
  | .handshakeTimeout i => stepHandshakeDone w i
  | .execSubmit execution_id code =>
    let wiring := execute_code_wiring execution_id code w.nextChan
    some { w with
      nextChan := wiring.nextChan,
      submitted := w.submitted ++ [wiring.request] }

/-- Fold of `stepA` over a list of actions. -/
def applyActions (w : World) : List Action → Option World
  | [] => some w
  | a :: rest =>
    match stepA w a with
    | none => none
    | some w' => applyActions w' rest

/-- Reachable worlds from the initial world with catalog `rts`. -/
inductive Reach (rts : List Runtime) : World → Prop where
  | init : Reach rts (initWorld rts)
  | next {w a w'} : Reach rts w → stepA w a = some w' → Reach rts w'

/-- Keys of the `instances` map are pairwise distinct: at most one
`RunningKernel` per entity id. -/
def KeysDistinct (w : World) : Prop :=
  w.mgr.instances.Pairwise (fun p q => p.1 ≠ q.1)

/-- Every submitted request's sink is below the allocator and all sinks
are pairwise distinct (each came from a fresh `mpsc::unbounded()`). -/
def SinksFresh (w : World) : Prop :=
  (w.submitted.map Request.iopub_sender).Nodup ∧
    ∀ r ∈ w.submitted, r.iopub_sender < w.nextChan

/-- Combined inductive invariant of the interleaving model. -/
def Inv (w : World) : Prop := KeysDistinct w ∧ SinksFresh w

theorem insertInstance_pairwise (m : List (Nat × RunningKernel)) (k : Nat)
    (v : RunningKernel) (h : m.Pairwise (fun p q => p.1 ≠ q.1)) :
    (insertInstance m k v).Pairwise (fun p q => p.1 ≠ q.1) := by
  unfold insertInstance
  refine List.Pairwise.cons ?_ (h.sublist (List.filter_sublist m))
  intro q hq
  have hqk : q.1 ≠ k := by
    have := (List.mem_filter.mp hq).2
    simpa using this
  exact fun hk => hqk hk.symm

theorem sinks_append (l : List Request) (r : Request) (n n' : Nat)
    (hnodup : (l.map Request.iopub_sender).Nodup)
    (hbound : ∀ x ∈ l, x.iopub_sender < n)
    (hr : n ≤ r.iopub_sender) (hr' : r.iopub_sender < n') (hle : n ≤ n') :
    ((l ++ [r]).map Request.iopub_sender).Nodup ∧
      ∀ x ∈ l ++ [r], x.iopub_sender < n' := by
  constructor
  · rw [List.map_append]
    refine hnodup.append (List.nodup_singleton _) ?_
    intro s hs hs'
    simp only [List.map_cons, List.map_nil, List.mem_singleton] at hs'
    obtain ⟨x, hx, hxs⟩ := List.mem_map.mp hs
    have hxn := hbound x hx
    rw [hxs, hs'] at hxn
    exact Nat.lt_irrefl _ (Nat.lt_of_lt_of_le hxn hr)
  · intro x hx
    rcases List.mem_append.mp hx with hx | hx
    · exact lt_of_lt_of_le (hbound x hx) hle
    · rw [List.mem_singleton.mp hx]; exact hr'

theorem inv_step {w w' : World} {a : Action} (hw : Inv w)
    (h : stepA w a = some w') : Inv w' := by
  obtain ⟨hkeys, hnodup, hbound⟩ := hw
  cases a with
  | callAcquire e lang =>
    simp only [stepA] at h
    split at h <;>
      · injection h with h
        subst h
        exact ⟨hkeys, hnodup, hbound⟩
  | launchOk i =>
    simp only [stepA] at h
    split at h
    · exact absurd h (by simp)
    · split at h
      · injection h with h
        subst h
        refine ⟨hkeys, ?_⟩
        exact sinks_append w.submitted _ w.nextChan (w.nextChan + 2) hnodup hbound
          (Nat.le_succ _) (Nat.lt_succ_self _) (Nat.le_add_right _ 2)
      all_goals exact absurd h (by simp)
  | launchErr i msg =>
    simp only [stepA] at h
    split at h
    · exact absurd h (by simp)
    · split at h
      · injection h with h
        subst h
        exact ⟨hkeys, hnodup, hbound⟩
      all_goals exact absurd h (by simp)
  | handshakeReply i =>
    simp only [stepA, stepHandshakeDone] at h
    split at h
    · exact absurd h (by simp)
    · split at h
      case _ t kernel sink _ =>
        injection h with h
        subst h
        exact ⟨insertInstance_pairwise _ _ _ hkeys, hnodup, hbound⟩
      all_goals exact absurd h (by simp)
  | handshakeTimeout i =>
    simp only [stepA, stepHandshakeDone] at h
    split at h
    · exact absurd h (by simp)
    · split at h
      case _ t kernel sink _ =>
        injection h with h
        subst h
        exact ⟨insertInstance_pairwise _ _ _ hkeys, hnodup, hbound⟩
      all_goals exact absurd h (by simp)
  | execSubmit eid code =>
    simp only [stepA] at h
    injection h with h
    subst h
    refine ⟨hkeys, ?_⟩
    exact sinks_append w.submitted _ w.nextChan (w.nextChan + 1) hnodup hbound
      (le_refl _) (Nat.lt_succ_self _) (Nat.le_succ _)

theorem inv_init (rts : List Runtime) : Inv (initWorld rts) := by
  refine ⟨List.Pairwise.nil, List.nodup_nil, ?_⟩
  intro r hr
  simp [initWorld] at hr

theorem reach_inv {rts : List Runtime} {w : World} (h : Reach rts w) : Inv w := by
  induction h with
  | init => exact inv_init rts
  | next _ hstep ih => exact inv_step ih hstep

theorem tasks_get_set_self (l : List AcquireTask) (i : Nat) (t x : AcquireTask)
    (h : l.get? i = some t) : (l.set i x).get? i = some x := by
  induction l generalizing i with
  | nil => simp [List.get?] at h
  | cons a as ih =>
    cases i with
    | zero => rfl
    | succ j => exact ih j (by simpa using h)

/-- Concrete python runtime used by example traces. -/
def pythonRuntime : Runtime := ⟨⟨"python", ["python3", "-m", "ipykernel"]⟩⟩

/-- Demo catalog: exactly one python runtime. -/
def demoRts : List Runtime := [pythonRuntime]

/-- Demo worlds: one acquisition for entity 1 that launches, times out on
the handshake, installs the session, then one execution submission. -/
def dW0 : World := initWorld demoRts

def dW1 : World := (stepA dW0 (.callAcquire 1 "python")).getD dW0

def dW2 : World := (stepA dW1 (.launchOk 0)).getD dW0

def dW3 : World := (stepA dW2 (.handshakeTimeout 0)).getD dW0

def dW4 : World := (stepA dW3 (.execSubmit 7 "1+1")).getD dW0

theorem demo_reach : Reach demoRts dW4 := by
  have h0 : Reach demoRts dW0 := Reach.init
  have h1 : Reach demoRts dW1 :=
    Reach.next h0 (show stepA dW0 (.callAcquire 1 "python") = some dW1 from rfl)
  have h2 : Reach demoRts dW2 :=
    Reach.next h1 (show stepA dW1 (.launchOk 0) = some dW2 from rfl)
  have h3 : Reach demoRts dW3 :=
    Reach.next h2 (show stepA dW2 (.handshakeTimeout 0) = some dW3 from rfl)
  exact Reach.next h3 (show stepA dW3 (.execSubmit 7 "1+1") = some dW4 from rfl)

/-- World after a failed launch of the pending acquisition of `dW1`. -/
def eW1 : World := (stepA dW1 (.launchErr 0 "spawn failed")).getD dW0

/-- The racing schedule: two acquisitions for entity 1 are issued before
the first launch completes, then both launches resolve and both
handshakes finish. -/
def raceTrace : List Action :=
  [.callAcquire 1 "python", .callAcquire 1 "python", .launchOk 0, .launchOk 1,
   .handshakeTimeout 0, .handshakeReply 1]

/-- C1: evaluation of the code at the racing schedule. Two acquisitions
for entity 1 issued before the first launch completes both pass the
`instances` check, so the code starts TWO kernel launches; both callers
do receive working control senders (0 and 2), and the second install
overwrites the first session in the map. This refutes the at-most-one-
launch-per-key part of the claim on the code as written. -/
theorem acquire_double_launch_on_race :
    (applyActions (initWorld demoRts) raceTrace).map World.launches = some 2 ∧
    (applyActions (initWorld demoRts) raceTrace).map
        (fun w => w.tasks.map AcquireTask.phase)
      = some [.done (.ok 0), .done (.ok 2)] ∧
    (applyActions (initWorld demoRts) raceTrace).map (fun w => w.mgr.instances)
      = some [(1, ⟨2⟩)] := by
  refine ⟨rfl, rfl, rfl⟩

/-- C2: every `execute_code` call wires a fresh output channel: the sink
of the submitted request is the sender of exactly that channel, tagged
with the given execution id and code, the receiver handed back is the
same channel, and a second call allocates a different channel; moreover
in every reachable interleaving the sinks of all submitted requests are
pairwise distinct, so updates of two concurrently executed requests never
cross into each other. -/
theorem execute_code_fresh_channel_no_crosstalk :
    (∀ (eid : Nat) (code : String) (n : Nat),
      (execute_code_wiring eid code n).request.iopub_sender
          = (execute_code_wiring eid code n).rx ∧
      (execute_code_wiring eid code n).request.execution_id = eid ∧
      (execute_code_wiring eid code n).request.request = .executeRequest code ∧
      ∀ (eid2 : Nat) (code2 : String),
        (execute_code_wiring eid code n).rx
          ≠ (execute_code_wiring eid2 code2 (execute_code_wiring eid code n).nextChan).rx) ∧
    ∀ (rts : List Runtime) (w : World), Reach rts w →
      (w.submitted.map Request.iopub_sender).Nodup := by
  constructor
  · intro eid code n
    refine ⟨rfl, rfl, rfl, ?_⟩
    intro eid2 code2
    show n ≠ n + 1
    exact fun h => Nat.succ_ne_self n h.symm
  · intro rts w h
    exact (reach_inv h).2.1

theorem execute_code_fresh_channel_no_crosstalk_witness :
    (dW4.submitted.map Request.iopub_sender).Nodup :=
  execute_code_fresh_channel_no_crosstalk.2 demoRts dW4 demo_reach

/-- C3: a handshake timeout does not fail the acquisition: after a
successful launch the continuation installs the kernel under the session
key and returns its control sender on the timeout arm, identically to the
reply arm, both in the launch continuation and in the step relation. -/
theorem handshake_timeout_still_installs :
    (∀ (instances : List (Nat × RunningKernel)) (e : Nat) (k : RunningKernel),
      launch_continuation instances e (.ok k) true .timeout
          = (.ok k.shell_request_tx, insertInstance instances e k) ∧
      launch_continuation instances e (.ok k) true .timeout
          = launch_continuation instances e (.ok k) true .reply) ∧
    ∀ (w : World) (i : Nat),
      stepA w (.handshakeTimeout i) = stepA w (.handshakeReply i) := by
  exact ⟨fun instances e k => ⟨rfl, rfl⟩, fun w i => rfl⟩

/-- C4: when no live session exists for the key and no catalog spec
matches the language, the acquisition resolves with the runtime-not-found
error, the manager state is unchanged, and no launch is started. -/
theorem no_runtime_no_launch (w : World) (e : Nat) (lang : String) (w' : World)
    (hlk : lookupInstance w.mgr.instances e = none)
    (hfind : findRuntime w.mgr.runtimes lang = none)
    (hstep : stepA w (.callAcquire e lang) = some w') :
    w'.mgr = w.mgr ∧ w'.launches = w.launches ∧ w'.nextChan = w.nextChan ∧
      w'.tasks = w.tasks ++
        [⟨e, lang, .done (.error ("No runtime found for language " ++ lang))⟩] := by
  simp only [stepA, acquire_shell_request_tx_sync, hlk, hfind] at hstep
  injection hstep with hstep
  subst hstep
  exact ⟨rfl, rfl, rfl, rfl⟩

/-- Empty-catalog world for the C4 witness. -/
def cW0 : World := initWorld []

def cW1 : World := (stepA cW0 (.callAcquire 1 "python")).getD cW0

theorem no_runtime_no_launch_witness :
    lookupInstance cW0.mgr.instances 1 = none ∧
    findRuntime cW0.mgr.runtimes "python" = none ∧
    stepA cW0 (.callAcquire 1 "python") = some cW1 ∧
    (cW1.mgr = cW0.mgr ∧ cW1.launches = cW0.launches ∧ cW1.nextChan = cW0.nextChan ∧
      cW1.tasks = cW0.tasks ++
        [⟨1, "python", .done (.error ("No runtime found for language " ++ "python"))⟩]) :=
  ⟨rfl, rfl, rfl, no_runtime_no_launch cW0 1 "python" cW1 rfl rfl rfl⟩

/-- C5: a live session for the key short-circuits the acquisition: its
cached sender is returned as an immediately ready task, for any requested
language and any catalog contents. -/
theorem live_session_cache_hit (m : RuntimeManager) (e : Nat) (lang : String)
    (k : RunningKernel) (h : lookupInstance m.instances e = some k) :
    acquire_shell_request_tx_sync m e lang = .ready (.ok k.shell_request_tx) := by
  simp only [acquire_shell_request_tx_sync, h]

theorem live_session_cache_hit_witness :
    lookupInstance [(1, (⟨5⟩ : RunningKernel))] 1 = some ⟨5⟩ ∧
    acquire_shell_request_tx_sync ⟨[], [(1, ⟨5⟩)]⟩ 1 "ruby" = .ready (.ok 5) :=
  ⟨rfl, live_session_cache_hit ⟨[], [(1, ⟨5⟩)]⟩ 1 "ruby" ⟨5⟩ rfl⟩

/-- C6: a failed kernel launch resolves the acquisition with the launch
error verbatim, leaves the manager state (instances, launch count,
submissions) untouched, and caches no failure: a later acquisition runs
the identical algorithm on the identical manager state. -/
theorem launch_failure_propagates_no_cache (w : World) (i : Nat) (msg : String)
    (w' : World) (hstep : stepA w (.launchErr i msg) = some w') :
    w'.mgr = w.mgr ∧ w'.launches = w.launches ∧ w'.submitted = w.submitted ∧
      (w'.tasks.get? i).map AcquireTask.phase = some (.done (.error msg)) ∧
      ∀ (e : Nat) (lang : String),
        acquire_shell_request_tx_sync w'.mgr e lang
          = acquire_shell_request_tx_sync w.mgr e lang := by
  simp only [stepA] at hstep
  split at hstep
  · exact absurd hstep (by simp)
  case _ t heq =>
    split at hstep
    case _ runtime hphase =>
      injection hstep with hstep
      subst hstep
      refine ⟨rfl, rfl, rfl, ?_, fun e lang => rfl⟩
      rw [tasks_get_set_self w.tasks i t _ heq]
      rfl
    all_goals exact absurd hstep (by simp)

theorem launch_failure_propagates_no_cache_witness :
    stepA dW1 (.launchErr 0 "spawn failed") = some eW1 ∧
    (eW1.mgr = dW1.mgr ∧ eW1.launches = dW1.launches ∧ eW1.submitted = dW1.submitted ∧
      (eW1.tasks.get? 0).map AcquireTask.phase = some (.done (.error "spawn failed")) ∧
      ∀ (e : Nat) (lang : String),
        acquire_shell_request_tx_sync eW1.mgr e lang
          = acquire_shell_request_tx_sync dW1.mgr e lang) :=
  ⟨rfl, launch_failure_propagates_no_cache dW1 0 "spawn failed" eW1 rfl⟩

/-- C7: after a successful acquisition, exactly one send attempt is made
on the control sender; when the channel is closed the call resolves with
the submission error and touches neither the instances map nor the
channel again, and when it is open the fresh receiver is returned. -/
theorem single_submission_no_relaunch :
    ∀ (instances : List (Nat × RunningKernel)) (eid : Nat) (code : String) (n : Nat),
      ((execute_code_submit instances true eid code n).attempts.length = 1 ∧
       (execute_code_submit instances true eid code n).result
          = .error "Failed to send execution request" ∧
       (execute_code_submit instances true eid code n).instances = instances) ∧
      ((execute_code_submit instances false eid code n).attempts.length = 1 ∧
       (execute_code_submit instances false eid code n).result
          = .ok (execute_code_wiring eid code n).rx ∧
       (execute_code_submit instances false eid code n).instances = instances) :=
  fun _ _ _ _ => ⟨⟨rfl, rfl, rfl⟩, ⟨rfl, rfl, rfl⟩⟩

/-- C8: catalog resolution returns the first spec in catalog order whose
language equals the request; all later matches are ignored. -/
theorem find_runtime_first_match (l1 l2 : List Runtime) (r : Runtime) (lang : String)
    (h1 : ∀ q ∈ l1, q.spec.language ≠ lang) (h2 : r.spec.language = lang) :
    findRuntime (l1 ++ r :: l2) lang = some r := by
  induction l1 with
  | nil =>
    unfold findRuntime
    rw [List.nil_append, List.find?_cons_of_pos]
    exact beq_iff_eq.mpr h2
  | cons a as ih =>
    unfold findRuntime at ih ⊢
    rw [List.cons_append, List.find?_cons_of_neg]
    · exact ih fun q hq => h1 q (List.mem_cons_of_mem a hq)
    · simp only [beq_iff_eq]
      exact h1 a (List.mem_cons_self a as)

/-- Second python runtime, differing from `pythonRuntime` in its launch
arguments, for the C8 witness. -/
def pythonRuntimeAlt : Runtime := ⟨⟨"python", ["python3", "-m", "other_kernel"]⟩⟩

theorem find_runtime_first_match_witness :
    (∀ q ∈ ([] : List Runtime), q.spec.language ≠ "python") ∧
    pythonRuntime.spec.language = "python" ∧
    findRuntime ([] ++ pythonRuntime :: [pythonRuntimeAlt]) "python"
      = some pythonRuntime :=
  ⟨fun q hq => absurd hq (List.not_mem_nil q), rfl,
   find_runtime_first_match [] [pythonRuntimeAlt] pythonRuntime "python"
     (fun q hq => absurd hq (List.not_mem_nil q)) rfl⟩

/-- C9: in every reachable world the instances map has pairwise distinct
keys: no operation ever leaves two entries for the same session key. -/
theorem instances_at_most_one_per_key {rts : List Runtime} {w : World}
    (h : Reach rts w) :
    w.mgr.instances.Pairwise (fun p q => p.1 ≠ q.1) :=
  (reach_inv h).1

theorem instances_at_most_one_per_key_witness :
    dW4.mgr.instances.Pairwise
      (fun (p q : Nat × RunningKernel) => p.1 ≠ q.1) :=
  instances_at_most_one_per_key demo_reach

/-- C10: the kernel-info handshake request carries its own freshly
allocated private sink: in every reachable world its sink differs from
the sink of every execute request, so no handshake reply can be delivered
on an update stream returned to a caller of execute. -/
theorem handshake_sink_private {rts : List Runtime} {w : World} (h : Reach rts w)
    (r1 : Request) (h1 : r1 ∈ w.submitted) (hk : r1.request = .kernelInfoRequest)
    (r2 : Request) (h2 : r2 ∈ w.submitted)
    (hx : ∃ code, r2.request = .executeRequest code) :
    r1.iopub_sender ≠ r2.iopub_sender := by
  obtain ⟨code, hcode⟩ := hx
  have hnodup := (reach_inv h).2.1
  intro hss
  have h12 : r1 = r2 := List.inj_on_of_nodup_map hnodup h1 h2 hss
  rw [h12, hcode] at hk
  exact MessageContent.noConfusion hk

theorem handshake_sink_private_witness :
    (⟨0, .kernelInfoRequest, 1⟩ : Request) ∈ dW4.submitted ∧
    (⟨7, .executeRequest "1+1", 2⟩ : Request) ∈ dW4.submitted ∧
    (1 : ChanId) ≠ 2 :=
  ⟨by decide, by decide,
   handshake_sink_private demo_reach ⟨0, .kernelInfoRequest, 1⟩ (by decide) rfl
     ⟨7, .executeRequest "1+1", 2⟩ (by decide) ⟨"1+1", rfl⟩⟩

end Runtimes
